import Mathlib

/-!
# Verification of the shape-creator gesture logic

Shallow embedding of the gesture / registry / recycle-zone logic of the
shape-creator demo (`src/main.js` and the unnamed variant
`src/unnamed/part_000`).

Modelling conventions:

* Landmark and shape coordinates are rationals (the idealised arithmetic the
  source performs with JS numbers).
* The source measures distances with `Math.hypot`, i.e. square roots.  Every
  *branch* of the source compares a distance against a nonnegative constant
  (`< 0.06`, `< 0.12`, `< 1.5`) or against another distance, and such
  comparisons hold iff the same comparisons hold between the *squares*.  The
  embedding therefore carries squared distances (`dist3Sq`, `dist2Sq`), keeps
  `originalDistance` and the uniform shape scale by their squares
  (`originalDistanceSq`, `scaleSq`), and the theorems bridge back to the real
  Euclidean distance with `Real.sqrt` where a claim speaks about the distance
  or scale itself.  This keeps every definition computable.
* Rendering (`scene`, drawing on the 2D canvas, feedback effects), status
  strings (`updateStatus`) and the random choice of geometry/colour are pure
  presentation and do not feed back into the gesture logic; they are omitted.
  The registry `shapes` is the authoritative shape collection.
* JS object identity for shapes is modelled by a numeric `id` issued from a
  counter (`nextId`); `selectedShape` / `currentShape` hold the id.  Mutating
  a shape object that is still in the registry is modelled by updating the
  entry with that id; mutating a dangling object (one already filtered out of
  `shapes`) has no observable effect on the registry in JS, and the id-based
  update is likewise a no-op.
* The camera projection used by `isInRecycleBinZone` is external (THREE.js);
  it enters the model as an abstract function `Env.proj` from 3D points to
  normalized device coordinates, together with the viewport size.
* `Date.now()` enters as an integer argument `now` of the per-frame step.
-/

namespace ShapeCreator

/-- A 3D point: a hand landmark (normalized x, y plus relative depth z) or a
world/NDC position.  Coordinates are rational. -/
structure Pt3 where
  x : ℚ
  y : ℚ
  z : ℚ
  deriving DecidableEq

/-- Square of the 3D Euclidean distance `Math.hypot(a.x-b.x, a.y-b.y, a.z-b.z)`
between two points. -/
def dist3Sq (a b : Pt3) : ℚ :=
  (a.x - b.x) ^ 2 + (a.y - b.y) ^ 2 + (a.z - b.z) ^ 2

/-- Square of the 2D Euclidean distance `Math.hypot(a.x-b.x, a.y-b.y)`. -/
def dist2Sq (a b : Pt3) : ℚ :=
  (a.x - b.x) ^ 2 + (a.y - b.y) ^ 2

/-- A hand as MediaPipe delivers it: an array of landmark points.  A full hand
has 21 entries; the array may be shorter (hand partially out of frame). -/
abbrev Hand := List Pt3

/-- One tracking callback's `results.multiHandLandmarks`: `none` when the
field itself is absent, otherwise a list whose entries may individually be
null. -/
abbrev Frame := Option (List (Option Hand))

/-- `isPinch(landmarks)` of the source: true iff the landmark array and its
entries 4 (thumb tip) and 8 (index tip) are present and their 3D distance is
below 0.06, i.e. its square is below 0.06² = 9/2500. -/
def isPinch (oh : Option Hand) : Bool :=
  match oh with
  | none => false
  | some h =>
    match h[4]?, h[8]? with
    | some a, some b => decide (dist3Sq a b < 9 / 2500)
    | _, _ => false

/-- `areIndexFingersClose(l, r)` of the source: true iff both hands and their
landmark-8 entries are present and the 2D distance between the two index tips
is below 0.12, i.e. its square is below 0.12² = 9/625. -/
def areIndexFingersClose (ol orr : Option Hand) : Bool :=
  match ol, orr with
  | some l, some r =>
    match l[8]?, r[8]? with
    | some a, some b => decide (dist2Sq a b < 9 / 625)
    | _, _ => false
  | _, _ => false

/-- `get3DCoords(normX, normY)` of the source: the fixed linear map from
normalized screen coordinates to the world plane z = 0. -/
def get3DCoords (normX normY : ℚ) : Pt3 :=
  ⟨(normX - 1 / 2) * 10, (1 / 2 - normY) * 10, 0⟩

/-- A shape handle of the registry.  `scaleSq` is the square of the uniform
scale factor (the source's `group.scale`, default 1); `wireRed` is whether the
wireframe material is currently red (armed for deletion) rather than white. -/
structure Shape where
  id : ℕ
  pos : Pt3
  scaleSq : ℚ
  wireRed : Bool
  deriving DecidableEq

/-- The accumulator step of `findNearestShape`'s `forEach` loop: the running
pair `(minDist, closest)`, with `none` for the initial `Infinity` / `null`.
The comparisons `dist < 1.5 && dist < minDist` of the source are taken on
squares. -/
def nearestFold (p : Pt3) (acc : Option ℚ × Option Shape) (s : Shape) :
    Option ℚ × Option Shape :=
  let dSq := dist3Sq s.pos p
  if dSq < 9 / 4 ∧ (∀ m ∈ acc.1, dSq < m) then (some dSq, some s) else acc

/-- `findNearestShape(position)` of the source: linear scan keeping the
closest shape strictly within radius 1.5 (squared: 9/4). -/
def findNearestShape (shapes : List Shape) (p : Pt3) : Option Shape :=
  (shapes.foldl (nearestFold p) (none, none)).2

/-- The environment a frame executes in: the THREE.js camera projection to
normalized device coordinates (external, abstract) and the viewport size
`window.innerWidth` / `window.innerHeight`. -/
structure Env where
  proj : Pt3 → Pt3
  w : ℚ
  h : ℚ

/-- `screenX` of `isInRecycleBinZone`: `((vector.x + 1) / 2) * innerWidth`. -/
def screenX (env : Env) (p : Pt3) : ℚ :=
  ((env.proj p).x + 1) / 2 * env.w

/-- `screenY` of `isInRecycleBinZone`: `((-vector.y + 1) / 2) * innerHeight`. -/
def screenY (env : Env) (p : Pt3) : ℚ :=
  (-(env.proj p).y + 1) / 2 * env.h

/-- `isInRecycleBinZone(position)` of the source: project to screen pixels,
mirror the X axis, and test the bin rectangle. -/
def isInRecycleBinZone (env : Env) (p : Pt3) : Bool :=
  let binWidth : ℚ := 160
  let binHeight : ℚ := 160
  let binLeft := env.w - 60 - binWidth
  let binTop := env.h - 60 - binHeight
  let binRight := binLeft + binWidth
  let binBottom := binTop + binHeight
  let adjustedX := env.w - screenX env p
  decide (binLeft ≤ adjustedX ∧ adjustedX ≤ binRight ∧
    binTop ≤ screenY env p ∧ screenY env p ≤ binBottom)

/-- The gesture session state: the module-level mutable variables of the
source that the hand-results handler reads and writes, plus the shape
registry.  `recycleActive` models whether the recycle-bin DOM element has the
`active` class. -/
structure GState where
  shapes : List Shape
  nextId : ℕ
  currentShape : Option ℕ
  isPinching : Bool
  originalDistanceSq : Option ℚ
  selectedShape : Option ℕ
  shapeCreatedThisPinch : Bool
  lastShapeCreationTime : ℤ
  recycleActive : Bool
  deriving DecidableEq

/-- `shapeCreationCooldown` of the source (milliseconds). -/
def shapeCreationCooldown : ℤ := 1000

/-- `createRandomShape(position)`: append a fresh shape (default scale 1,
white wireframe) to the registry and return its id.  The random geometry and
colour do not affect the gesture logic and are not modelled. -/
def createRandomShape (p : Pt3) (st : GState) : GState × ℕ :=
  let s : Shape := { id := st.nextId, pos := p, scaleSq := 1, wireRed := false }
  ({ st with shapes := st.shapes ++ [s], nextId := st.nextId + 1 }, st.nextId)

/-- The fallthrough reset of the handler (`isPinching = false; ...`) executed
whenever the frame is not a qualifying two-hand pinch. -/
def resetPinchState (st : GState) : GState :=
  { st with isPinching := false, shapeCreatedThisPinch := false,
            originalDistanceSq := none, currentShape := none }

/-- The body of the two-hand-pinch branch once both index tips `left`/`right`
have been extracted: creation on gesture start, live scaling on continuation,
then `isPinching = true` and deactivation of the recycle indicator.
`distSq` stands for the source's `distance = Math.hypot(...)` (squared), and
the scaling `distance / originalDistance` becomes `distSq / oSq` on squares;
the JS truthiness test `originalDistance` (null or 0 falsy) becomes
`oSq ≠ 0`. -/
def twoHandPinch (now : ℤ) (indexesClose : Bool) (left right : Pt3)
    (st : GState) : GState :=
  let centerX := (left.x + right.x) / 2
  let centerY := (left.y + right.y) / 2
  let distSq := dist2Sq left right
  let st1 :=
    if !st.isPinching then
      if !st.shapeCreatedThisPinch && indexesClose &&
          decide (now - st.lastShapeCreationTime > shapeCreationCooldown) then
        let created := createRandomShape (get3DCoords centerX centerY) st
        { created.1 with lastShapeCreationTime := now,
                         shapeCreatedThisPinch := true,
                         originalDistanceSq := some distSq,
                         currentShape := some created.2 }
      else st
    else
      match st.currentShape, st.originalDistanceSq with
      | some cid, some oSq =>
        if oSq ≠ 0 then
          { st with shapes := st.shapes.map fun s : Shape =>
              if s.id = cid then { s with scaleSq := distSq / oSq } else s }
        else st
      | _, _ => st
  { st1 with isPinching := true, recycleActive := false }

/-- The body of one iteration of the single-hand loop, after the null and
landmark-8 guards: selection, per-frame move, recycle-zone highlight, and the
release / deletion branch. -/
def singleHandCore (env : Env) (h : Hand) (st : GState) : GState :=
  match h[8]? with
  | none => st
  | some indexTip =>
    let position := get3DCoords indexTip.x indexTip.y
    if isPinch (some h) then
      let st1 :=
        match st.selectedShape with
        | none => { st with selectedShape := (findNearestShape st.shapes position).map (fun s : Shape => s.id) }
        | some _ => st
      match st1.selectedShape with
      | some sid =>
        let moved := st1.shapes.map fun s : Shape =>
          if s.id = sid then { s with pos := position } else s
        let inBin := isInRecycleBinZone env position
        let recoloured := moved.map fun s : Shape =>
          if s.id = sid then { s with wireRed := inBin } else s
        { st1 with shapes := recoloured, recycleActive := inBin }
      | none => st1
    else
      match st.selectedShape with
      | some sid =>
        let st2 :=
          match st.shapes.find? (fun s : Shape => s.id = sid) with
          | some sel =>
            if isInRecycleBinZone env sel.pos then
              { st with shapes := st.shapes.filter fun t : Shape => t.id ≠ sid }
            else st
          | none => st
        { st2 with selectedShape := none, recycleActive := false }
      | none => { st with recycleActive := false }

/-- One iteration of the single-hand loop in `src/main.js`: skip when the
hand or its landmark 8 is missing (`continue`). -/
def singleHand (env : Env) (st : GState) (oh : Option Hand) : GState :=
  match oh with
  | none => st
  | some h => singleHandCore env h st

/-- One iteration of the single-hand loop in `src/unnamed/part_000`: it also
skips hands with fewer than 21 landmarks. -/
def singleHandAlt (env : Env) (st : GState) (oh : Option Hand) : GState :=
  match oh with
  | none => st
  | some h => if h.length < 21 then st else singleHandCore env h st

/-- The no-hands branch of the handler: delete a selected shape stranded in
the recycle zone, then clear the selection and the indicator. -/
def noHands (env : Env) (st : GState) : GState :=
  let st1 :=
    match st.selectedShape with
    | some sid =>
      match st.shapes.find? (fun s : Shape => s.id = sid) with
      | some sel =>
        if isInRecycleBinZone env sel.pos then
          { st with shapes := st.shapes.filter fun t : Shape => t.id ≠ sid }
        else st
      | none => st
    | none => st
  { st1 with selectedShape := none, recycleActive := false }

/-- Everything after the two-hand branch in `src/main.js`: the state reset
followed by the single-hand loop or the no-hands cleanup. -/
def afterTwoHand (env : Env) (hands : List (Option Hand)) (st : GState) : GState :=
  let st1 := resetPinchState st
  if 0 < hands.length then hands.foldl (singleHand env) st1
  else noHands env st1

/-- The same for `src/unnamed/part_000` (its loop guard differs). -/
def afterTwoHandAlt (env : Env) (hands : List (Option Hand)) (st : GState) : GState :=
  let st1 := resetPinchState st
  if 0 < hands.length then hands.foldl (singleHandAlt env) st1
  else noHands env st1

/-- `handleHandResults` of `src/main.js`: one tracking callback.  The drawing
code is presentation only and omitted; `return` statements that leave the
state untouched become `st`. -/
def mainStep (env : Env) (now : ℤ) (f : Frame) (st : GState) : GState :=
  match f with
  | none => afterTwoHand env [] st
  | some hands =>
    if hands.length = 2 then
      match hands[0]?, hands[1]? with
      | some (some l), some (some r) =>
        if isPinch (some l) && isPinch (some r) then
          match l[8]?, r[8]? with
          | some left, some right =>
            twoHandPinch now (areIndexFingersClose (some l) (some r)) left right st
          | _, _ => st
        else afterTwoHand env hands st
      | _, _ => st
    else afterTwoHand env hands st

/-- `handleHandResults` of `src/unnamed/part_000`.  Differences from
`mainStep`: an early return when `multiHandLandmarks` is absent, an early
return when either of the two hands has fewer than 21 landmarks, and the
extra length guard in the single-hand loop. -/
def altStep (env : Env) (now : ℤ) (f : Frame) (st : GState) : GState :=
  match f with
  | none => st
  | some hands =>
    if hands.length = 2 then
      match hands[0]?, hands[1]? with
      | some (some l), some (some r) =>
        if l.length < 21 ∨ r.length < 21 then st
        else if isPinch (some l) && isPinch (some r) then
          match l[8]?, r[8]? with
          | some left, some right =>
            twoHandPinch now (areIndexFingersClose (some l) (some r)) left right st
          | _, _ => st
        else afterTwoHandAlt env hands st
      | _, _ => st
    else afterTwoHandAlt env hands st

/-! ## Basic facts about the embedded geometry -/

theorem dist3Sq_nonneg (a b : Pt3) : 0 ≤ dist3Sq a b := by
  unfold dist3Sq; positivity

theorem dist2Sq_nonneg (a b : Pt3) : 0 ≤ dist2Sq a b := by
  unfold dist2Sq; positivity

/-- Comparing the Euclidean distance (the square root of an embedded squared
distance) against a positive rational bound is comparing the squares. -/
theorem sqrt_ratCast_lt {q c : ℚ} (hc : 0 < c) :
    (Real.sqrt (q : ℝ) < (c : ℝ)) ↔ q < c ^ 2 := by
  rw [Real.sqrt_lt' (by exact_mod_cast hc)]
  constructor
  · intro h; exact_mod_cast h
  · intro h; exact_mod_cast h

/-- `isPinch` on a present hand reveals landmarks 4 and 8 and the squared
pinch threshold. -/
theorem isPinch_some_iff (h : Hand) :
    isPinch (some h) = true ↔
      ∃ a b, h[4]? = some a ∧ h[8]? = some b ∧ dist3Sq a b < 9 / 2500 := by
  cases h4 : h[4]? with
  | none => simp [isPinch, h4]
  | some a =>
    cases h8 : h[8]? with
    | none => simp [isPinch, h4, h8]
    | some b => simp [isPinch, h4, h8]

/-- Likewise for `areIndexFingersClose` on two present hands. -/
theorem areIndexFingersClose_some_iff (l r : Hand) :
    areIndexFingersClose (some l) (some r) = true ↔
      ∃ a b, l[8]? = some a ∧ r[8]? = some b ∧ dist2Sq a b < 9 / 625 := by
  cases h8l : l[8]? with
  | none => simp [areIndexFingersClose, h8l]
  | some a =>
    cases h8r : r[8]? with
    | none => simp [areIndexFingersClose, h8l, h8r]
    | some b => simp [areIndexFingersClose, h8l, h8r]

/-! ## C9: the pinch predicate -/

/-- Claim C9: `isPinch` returns true iff the landmark array is present, its
entries 4 (thumb tip) and 8 (index tip) are present, and the 3D Euclidean
distance between them is strictly below 0.06; in every other case (including
distance exactly 0.06 or larger, or missing data) it returns false. -/
theorem isPinch_characterization (oh : Option Hand) :
    isPinch oh = true ↔
      ∃ h a b, oh = some h ∧ h[4]? = some a ∧ h[8]? = some b ∧
        Real.sqrt (dist3Sq a b) < 6 / 100 := by
  have key : ∀ a b : Pt3,
      (Real.sqrt ((dist3Sq a b : ℚ) : ℝ) < 6 / 100 ↔ dist3Sq a b < 9 / 2500) := by
    intro a b
    rw [show ((6 : ℝ) / 100) = (((6 / 100 : ℚ) : ℝ)) by norm_num,
      sqrt_ratCast_lt (by norm_num)]
    norm_num
  cases oh with
  | none => simp [isPinch]
  | some h =>
    rw [isPinch_some_iff]
    constructor
    · rintro ⟨a, b, h4, h8, hd⟩
      exact ⟨h, a, b, rfl, h4, h8, (key a b).2 hd⟩
    · rintro ⟨h', a, b, hh, h4, h8, hd⟩
      cases hh
      exact ⟨a, b, h4, h8, (key a b).1 hd⟩

/-! ## C8: the recycle-bin zone -/

/-- Stated from the spec's words: containment in a 160 × 160 px rectangle
inset 60 px from the right and from the bottom edge of a `w × h` viewport,
for a point given by its horizontally mirrored screen abscissa `ax` and its
screen ordinate `sy`. -/
def specRecycleRect (w h ax sy : ℚ) : Prop :=
  w - 60 - 160 ≤ ax ∧ ax ≤ w - 60 ∧ h - 60 - 160 ≤ sy ∧ sy ≤ h - 60

/-- Claim C8: `isInRecycleBinZone` projects through the camera to normalized
device coordinates, maps those to screen pixels (`screenX`/`screenY`),
mirrors the X axis (`adjustedX = w - screenX`), and returns true exactly when
the mirrored point lies in the 160 × 160 px rectangle inset 60 px from the
right and bottom viewport edges. -/
theorem recycle_zone_characterization (env : Env) (p : Pt3) :
    isInRecycleBinZone env p = true ↔
      specRecycleRect env.w env.h (env.w - screenX env p) (screenY env p) := by
  unfold isInRecycleBinZone specRecycleRect
  simp only [decide_eq_true_eq]
  constructor
  · rintro ⟨h1, h2, h3, h4⟩
    exact ⟨h1, by linarith, by linarith, by linarith⟩
  · rintro ⟨h1, h2, h3, h4⟩
    exact ⟨h1, by linarith, by linarith, by linarith⟩

/-! ## Reduction of the handler on qualifying two-hand-pinch frames -/

/-- On a frame with exactly two present hands, both pinching, the main
handler reduces to the two-hand-pinch body. -/
theorem mainStep_twoPinch (env : Env) (now : ℤ) (st : GState)
    {l r : Hand} {left right : Pt3}
    (hlp : isPinch (some l) = true) (hrp : isPinch (some r) = true)
    (hl8 : l[8]? = some left) (hr8 : r[8]? = some right) :
    mainStep env now (some [some l, some r]) st =
      twoHandPinch now (areIndexFingersClose (some l) (some r)) left right st := by
  simp [mainStep, hlp, hrp, hl8, hr8]

/-- Claim C1 (amended): on a frame that starts a two-hand pinch (both hands
pinching, `isPinching` still false) with the index tips close and no shape
created this pinch-session, a shape is created at the 3D-mapped midpoint of
the index tips — with the creation timestamp recorded,
`shapeCreatedThisPinch` set, `originalDistance` recorded (as its square) and
`currentShape` set — exactly when strictly more than 1000 ms
(`shapeCreationCooldown`) have elapsed since the last creation; at 1000 ms or
less, nothing is created and only `isPinching` and the recycle indicator
change. -/
theorem creation_on_two_hand_pinch_start (env : Env) (now : ℤ)
    (l r : Hand) (left right : Pt3) (st : GState)
    (hlp : isPinch (some l) = true) (hrp : isPinch (some r) = true)
    (hl8 : l[8]? = some left) (hr8 : r[8]? = some right)
    (hclose : areIndexFingersClose (some l) (some r) = true)
    (hp : st.isPinching = false) (hc : st.shapeCreatedThisPinch = false) :
    (now - st.lastShapeCreationTime > shapeCreationCooldown →
      mainStep env now (some [some l, some r]) st =
        { st with
            shapes := st.shapes ++
              [⟨st.nextId,
                get3DCoords ((left.x + right.x) / 2) ((left.y + right.y) / 2),
                1, false⟩],
            nextId := st.nextId + 1,
            lastShapeCreationTime := now,
            shapeCreatedThisPinch := true,
            originalDistanceSq := some (dist2Sq left right),
            currentShape := some st.nextId,
            isPinching := true,
            recycleActive := false })
    ∧ (now - st.lastShapeCreationTime ≤ shapeCreationCooldown →
      mainStep env now (some [some l, some r]) st =
        { st with isPinching := true, recycleActive := false }) := by
  rw [mainStep_twoPinch env now st hlp hrp hl8 hr8]
  constructor
  · intro hcool
    simp [twoHandPinch, createRandomShape, hp, hc, hclose, hcool]
  · intro hcool
    simp [twoHandPinch, hp, hc, hclose, show ¬ now - st.lastShapeCreationTime > shapeCreationCooldown by omega]

/-- Claim C5: on a continuing two-hand-pinch frame whose recorded baseline
distance is zero, the scale-ratio division is skipped and the state — in
particular every shape, scale included — is untouched apart from the
`isPinching` flag and the recycle indicator. -/
theorem zero_original_distance_no_scale (env : Env) (now : ℤ)
    (l r : Hand) (left right : Pt3) (st : GState)
    (hlp : isPinch (some l) = true) (hrp : isPinch (some r) = true)
    (hl8 : l[8]? = some left) (hr8 : r[8]? = some right)
    (hp : st.isPinching = true)
    (h0 : st.originalDistanceSq = some 0) :
    mainStep env now (some [some l, some r]) st =
      { st with isPinching := true, recycleActive := false } := by
  rw [mainStep_twoPinch env now st hlp hrp hl8 hr8]
  unfold twoHandPinch
  simp only [hp]
  cases hcur : st.currentShape with
  | none => simp [h0, hcur]
  | some cid => simp [h0, hcur]

/-- Claim C4: on a continuing two-hand-pinch frame (`isPinching` already
true) with a current shape and a nonzero recorded baseline distance, the
shape's uniform scale is set that frame to current distance /
`originalDistance` (on squares: `dist2Sq / oSq`, whose square root is the
quotient of the distances); with baseline 0.2 and current distance 0.3 the
applied factor is 1.5 (see the witness). -/
theorem scale_ratio_on_continuing_pinch (env : Env) (now : ℤ)
    (l r : Hand) (left right : Pt3) (cid : ℕ) (oSq : ℚ) (st : GState)
    (hlp : isPinch (some l) = true) (hrp : isPinch (some r) = true)
    (hl8 : l[8]? = some left) (hr8 : r[8]? = some right)
    (hp : st.isPinching = true)
    (hcur : st.currentShape = some cid)
    (horig : st.originalDistanceSq = some oSq)
    (hne : oSq ≠ 0) :
    (mainStep env now (some [some l, some r]) st =
      { st with
          shapes := st.shapes.map fun s : Shape =>
            if s.id = cid then { s with scaleSq := dist2Sq left right / oSq } else s,
          isPinching := true,
          recycleActive := false })
    ∧ Real.sqrt ((dist2Sq left right / oSq : ℚ) : ℝ) =
        Real.sqrt ((dist2Sq left right : ℚ) : ℝ) / Real.sqrt ((oSq : ℚ) : ℝ) := by
  constructor
  · rw [mainStep_twoPinch env now st hlp hrp hl8 hr8]
    simp [twoHandPinch, hp, hcur, horig, hne]
  · rw [Rat.cast_div, Real.sqrt_div (by exact_mod_cast dist2Sq_nonneg left right)]

/-- Claim C7: on a frame where the single present hand is not pinching and a
shape is selected, the selection and the recycle indicator are cleared, and
the selected shape is removed from the registry exactly when its position is
inside the recycle zone — otherwise the registry (positions included) is
unchanged. -/
theorem release_deletes_iff_in_recycle_zone (env : Env) (now : ℤ)
    (h : Hand) (tip : Pt3) (st : GState) (sid : ℕ) (sel : Shape)
    (h8 : h[8]? = some tip)
    (hnp : isPinch (some h) = false)
    (hsel : st.selectedShape = some sid)
    (hfind : st.shapes.find? (fun s : Shape => s.id = sid) = some sel) :
    ((mainStep env now (some [some h]) st).selectedShape = none) ∧
    ((mainStep env now (some [some h]) st).recycleActive = false) ∧
    (isInRecycleBinZone env sel.pos = true →
      (mainStep env now (some [some h]) st).shapes =
        st.shapes.filter fun t : Shape => t.id ≠ sid) ∧
    (isInRecycleBinZone env sel.pos = false →
      (mainStep env now (some [some h]) st).shapes = st.shapes) := by
  have hred : mainStep env now (some [some h]) st =
      singleHandCore env h (resetPinchState st) := by
    simp [mainStep, afterTwoHand, singleHand]
  rw [hred]
  cases hzone : isInRecycleBinZone env sel.pos with
  | true =>
    simp [singleHandCore, resetPinchState, h8, hnp, hsel, hfind, hzone]
  | false =>
    simp [singleHandCore, resetPinchState, h8, hnp, hsel, hfind, hzone]

/-- A frame in which exactly two hands are present and both pinch. -/
def TwoPinchFrame (f : Frame) : Prop :=
  ∃ l r, f = some [some l, some r] ∧
    isPinch (some l) = true ∧ isPinch (some r) = true

theorem twoHandPinch_isPinching (now : ℤ) (ic : Bool) (left right : Pt3)
    (st : GState) : (twoHandPinch now ic left right st).isPinching = true := by
  unfold twoHandPinch
  rfl

theorem twoHandPinch_length (now : ℤ) (ic : Bool) (left right : Pt3)
    (st : GState) :
    (twoHandPinch now ic left right st).shapes.length ≤ st.shapes.length + 1 := by
  rcases hcur : st.currentShape with _ | cid <;>
    rcases ho : st.originalDistanceSq with _ | oSq <;>
    cases hp : st.isPinching <;>
    simp [twoHandPinch, createRandomShape, hp, hcur, ho] <;>
    split <;> simp

theorem twoHandPinch_length_of_pinching (now : ℤ) (ic : Bool) (left right : Pt3)
    (st : GState) (hp : st.isPinching = true) :
    (twoHandPinch now ic left right st).shapes.length = st.shapes.length := by
  rcases hcur : st.currentShape with _ | cid
  · simp [twoHandPinch, hp, hcur]
  · rcases ho : st.originalDistanceSq with _ | oSq
    · simp [twoHandPinch, hp, hcur, ho]
    · by_cases hz : oSq = 0
      · simp [twoHandPinch, hp, hcur, ho, hz]
      · simp [twoHandPinch, hp, hcur, ho, hz]

theorem mainStep_twoPinchFrame (env : Env) (now : ℤ) (f : Frame) (st : GState)
    (hf : TwoPinchFrame f) :
    (mainStep env now f st).isPinching = true ∧
    (mainStep env now f st).shapes.length ≤ st.shapes.length + 1 ∧
    (st.isPinching = true →
      (mainStep env now f st).shapes.length = st.shapes.length) := by
  obtain ⟨l, r, rfl, hlp, hrp⟩ := hf
  obtain ⟨a, b, h4, h8, hd⟩ := (isPinch_some_iff l).1 hlp
  obtain ⟨a', b', h4', h8', hd'⟩ := (isPinch_some_iff r).1 hrp
  rw [mainStep_twoPinch env now st hlp hrp h8 h8']
  exact ⟨twoHandPinch_isPinching _ _ _ _ _,
    twoHandPinch_length _ _ _ _ _,
    fun hp => twoHandPinch_length_of_pinching _ _ _ _ _ hp⟩

theorem fold_twoPinch_preserves (env : Env) (frames : List (ℤ × Frame)) :
    ∀ st : GState, st.isPinching = true →
      (∀ q ∈ frames, TwoPinchFrame q.2) →
      (frames.foldl (fun s q => mainStep env q.1 q.2 s) st).shapes.length =
        st.shapes.length := by
  induction frames with
  | nil => intro st _ _; rfl
  | cons q rest ih =>
    intro st hp hall
    have hq := hall q (List.mem_cons_self q rest)
    have hstep := mainStep_twoPinchFrame env q.1 q.2 st hq
    simp only [List.foldl_cons]
    rw [ih (mainStep env q.1 q.2 st) hstep.1
      (fun p hp' => hall p (List.mem_cons_of_mem q hp'))]
    exact hstep.2.2 hp

/-- Claim C2: starting outside a two-hand pinch, a whole session of
consecutive two-hand-both-pinch frames adds at most one shape to the
registry, no matter how many frames the session lasts. -/
theorem one_shape_per_pinch_session (env : Env) (st : GState)
    (frames : List (ℤ × Frame))
    (_h0 : st.isPinching = false)
    (hall : ∀ q ∈ frames, TwoPinchFrame q.2) :
    (frames.foldl (fun s q => mainStep env q.1 q.2 s) st).shapes.length ≤
      st.shapes.length + 1 := by
  cases frames with
  | nil => simp
  | cons q rest =>
    have hq := hall q (List.mem_cons_self q rest)
    have hstep := mainStep_twoPinchFrame env q.1 q.2 st hq
    simp only [List.foldl_cons]
    rw [fold_twoPinch_preserves env rest (mainStep env q.1 q.2 st) hstep.1
      (fun p hp' => hall p (List.mem_cons_of_mem q hp'))]
    exact hstep.2.1

theorem afterTwoHand_eq_alt (env : Env) (hands : List (Option Hand)) (st : GState)
    (hfull : ∀ oh ∈ hands, ∀ h : Hand, oh = some h → 21 ≤ h.length) :
    afterTwoHand env hands st = afterTwoHandAlt env hands st := by
  unfold afterTwoHand afterTwoHandAlt
  split
  · apply List.foldl_ext
    intro s oh hmem
    cases oh with
    | none => rfl
    | some h =>
      have hlen := hfull (some h) hmem h rfl
      simp [singleHand, singleHandAlt, show ¬ h.length < 21 by omega]
  · rfl

/-- Claim C3 (amended): the two gesture handlers (`src/main.js` and
`src/unnamed/part_000`) are behaviorally equivalent on every frame whose
`multiHandLandmarks` field is present and whose present hands all carry at
least 21 landmarks; `handlers_differ_on_short_hands` shows they differ
outside this set. -/
theorem handlers_agree_on_full_hands (env : Env) (now : ℤ) (st : GState)
    (hands : List (Option Hand))
    (hfull : ∀ oh ∈ hands, ∀ h : Hand, oh = some h → 21 ≤ h.length) :
    mainStep env now (some hands) st = altStep env now (some hands) st := by
  unfold mainStep altStep
  by_cases hl : hands.length = 2
  · simp only [hl, if_true]
    cases h0 : hands[0]? with
    | none => rfl
    | some oh0 =>
      cases oh0 with
      | none =>
        cases h1 : hands[1]? with
        | none => rfl
        | some oh1 => cases oh1 <;> rfl
      | some l =>
        cases h1 : hands[1]? with
        | none => rfl
        | some oh1 =>
          cases oh1 with
          | none => rfl
          | some r =>
            have hll : 21 ≤ l.length := hfull (some l) (List.getElem?_mem h0) l rfl
            have hlr : 21 ≤ r.length := hfull (some r) (List.getElem?_mem h1) r rfl
            dsimp only
            rw [if_neg (show ¬ (l.length < 21 ∨ r.length < 21) by omega)]
            by_cases hpb : (isPinch (some l) && isPinch (some r)) = true
            · simp only [hpb, if_true]
            · simp only [hpb, if_false]
              exact afterTwoHand_eq_alt env hands st hfull
  · simp only [hl, if_false]
    exact afterTwoHand_eq_alt env hands st hfull

/-- The origin point, used by the concrete test frames. -/
def origin : Pt3 := ⟨0, 0, 0⟩

/-- A point 0.3 to the right of the origin (2D distance 0.3 from it). -/
def ptR : Pt3 := ⟨3 / 10, 0, 0⟩

/-- A complete 21-landmark hand, all landmarks at the origin: it pinches, and
its index tip is at the origin. -/
def hand21 : Hand := List.replicate 21 origin

/-- A complete 21-landmark hand at `ptR`. -/
def hand21R : Hand := List.replicate 21 ptR

/-- A hand with only 9 landmarks (indices 0–8): landmarks 4 and 8 exist, but
the array is shorter than 21 entries. -/
def hand9 : Hand := List.replicate 9 origin

/-- A concrete environment: identity projection, 1000 × 1000 viewport. -/
def env0 : Env := ⟨fun p => p, 1000, 1000⟩

/-- The initial session state of the source. -/
def st0 : GState := ⟨[], 0, none, false, none, none, false, 0, false⟩

theorem isPinch_hand21 : isPinch (some hand21) = true := by
  rw [isPinch_some_iff]
  exact ⟨origin, origin, by simp [hand21], by simp [hand21],
    by norm_num [dist3Sq, origin]⟩

theorem isPinch_hand21R : isPinch (some hand21R) = true := by
  rw [isPinch_some_iff]
  exact ⟨ptR, ptR, by simp [hand21R], by simp [hand21R],
    by norm_num [dist3Sq, ptR]⟩

theorem isPinch_hand9 : isPinch (some hand9) = true := by
  rw [isPinch_some_iff]
  exact ⟨origin, origin, by simp [hand9], by simp [hand9],
    by norm_num [dist3Sq, origin]⟩

theorem close_hand9 : areIndexFingersClose (some hand9) (some hand9) = true := by
  rw [areIndexFingersClose_some_iff]
  exact ⟨origin, origin, by simp [hand9], by simp [hand9],
    by norm_num [dist2Sq, origin]⟩

/-- A state in which one shape was created at time 0 and the pinch was then
released: reachable, with the cooldown clock at 0. -/
def stAfterCreate : GState :=
  ⟨[⟨0, origin, 1, false⟩], 1, none, false, none, none, false, 0, false⟩

/-- A state with one shape and the selection on it, as after a single-hand
pinch grabbed the shape at the origin. -/
def stSelected : GState :=
  ⟨[⟨0, origin, 1, false⟩], 1, none, false, none, some 0, false, 0, true⟩

/-- The two-short-hands frame of the C3 counterexample. -/
def frame9 : Frame := some [some hand9, some hand9]

/-- Counterexample for C3: on a frame whose two hands carry only 9 landmarks
(4 and 8 present), `src/main.js` creates a shape while `src/unnamed/part_000`
returns without touching the state, and on a frame with `multiHandLandmarks`
absent the former clears the selection while the latter keeps it: the two
handlers are not behaviorally equivalent. -/
theorem handlers_differ_on_short_hands :
    hand9.length < 21 ∧ hand9[4]?.isSome = true ∧ hand9[8]?.isSome = true ∧
    (mainStep env0 5000 frame9 st0).shapes.length = 1 ∧
    (altStep env0 5000 frame9 st0).shapes.length = 0 ∧
    mainStep env0 5000 frame9 st0 ≠ altStep env0 5000 frame9 st0 ∧
    (mainStep env0 0 none stSelected).selectedShape = none ∧
    (altStep env0 0 none stSelected).selectedShape = some 0 := by
  have hmain : mainStep env0 5000 frame9 st0 =
      twoHandPinch 5000 (areIndexFingersClose (some hand9) (some hand9))
        origin origin st0 :=
    mainStep_twoPinch env0 5000 st0 isPinch_hand9 isPinch_hand9
      (by simp [hand9]) (by simp [hand9])
  refine ⟨by norm_num [hand9], by simp [hand9], by simp [hand9], ?_, ?_, ?_, ?_, ?_⟩
  · rw [hmain]
    norm_num [twoHandPinch, close_hand9, createRandomShape, st0,
      shapeCreationCooldown]
  · norm_num [altStep, frame9, hand9, st0]
  · intro heq
    have h1 : (mainStep env0 5000 frame9 st0).shapes.length = 1 := by
      rw [hmain]
      norm_num [twoHandPinch, close_hand9, createRandomShape, st0,
        shapeCreationCooldown]
    have h2 : (altStep env0 5000 frame9 st0).shapes.length = 0 := by
      norm_num [altStep, frame9, hand9, st0]
    rw [heq, h2] at h1
    exact absurd h1 (by norm_num)
  · simp [mainStep, afterTwoHand, noHands, stSelected, resetPinchState,
      isInRecycleBinZone, screenX, screenY, env0, origin]
  · simp [altStep, stSelected]

theorem close_hand21 : areIndexFingersClose (some hand21) (some hand21) = true := by
  rw [areIndexFingersClose_some_iff]
  exact ⟨origin, origin, by simp [hand21], by simp [hand21],
    by norm_num [dist2Sq, origin]⟩

/-- A 9-landmark hand whose thumb tip (landmark 4) is far from its index tip
(landmark 8): present landmarks, but not a pinch. -/
def handOpen : Hand :=
  [origin, origin, origin, origin, ⟨1 / 2, 1 / 2, 0⟩, origin, origin, origin, origin]

theorem isPinch_handOpen : isPinch (some handOpen) = false := by
  norm_num [isPinch, handOpen, dist3Sq, origin]

/-- Witness for C3 at a concrete frame of two full hands. -/
theorem handlers_agree_on_full_hands_app :
    mainStep env0 2000 (some [some hand21, some hand21]) st0 =
      altStep env0 2000 (some [some hand21, some hand21]) st0 := by
  apply handlers_agree_on_full_hands
  intro oh hmem h hoh
  simp only [List.mem_cons, List.not_mem_nil, or_false] at hmem
  rcases hmem with rfl | rfl <;> (cases hoh; simp [hand21])

/-- Witness for C1: a creation 2000 ms after the previous one. -/
theorem creation_on_two_hand_pinch_start_app :
    mainStep env0 2000 (some [some hand21, some hand21]) stAfterCreate =
      { stAfterCreate with
          shapes := stAfterCreate.shapes ++
            [⟨stAfterCreate.nextId,
              get3DCoords ((origin.x + origin.x) / 2) ((origin.y + origin.y) / 2),
              1, false⟩],
          nextId := stAfterCreate.nextId + 1,
          lastShapeCreationTime := 2000,
          shapeCreatedThisPinch := true,
          originalDistanceSq := some (dist2Sq origin origin),
          currentShape := some stAfterCreate.nextId,
          isPinching := true,
          recycleActive := false } :=
  (creation_on_two_hand_pinch_start env0 2000 hand21 hand21 origin origin
    stAfterCreate isPinch_hand21 isPinch_hand21 (by simp [hand21])
    (by simp [hand21]) close_hand21 rfl rfl).1
    (by norm_num [stAfterCreate, shapeCreationCooldown])

/-- Counterexample for C1 as stated: with the last creation at 0 ms and the
gesture-start frame at 1000 ms, exactly 1000 ms ("at least 1000 ms") have
elapsed and every other creation condition holds, yet the code (strict
`now - last > 1000`) creates nothing. -/
theorem creation_cooldown_boundary :
    stAfterCreate.isPinching = false ∧
    stAfterCreate.shapeCreatedThisPinch = false ∧
    isPinch (some hand21) = true ∧
    areIndexFingersClose (some hand21) (some hand21) = true ∧
    (1000 : ℤ) - stAfterCreate.lastShapeCreationTime ≥ shapeCreationCooldown ∧
    (mainStep env0 1000 (some [some hand21, some hand21]) stAfterCreate).shapes =
      stAfterCreate.shapes := by
  refine ⟨rfl, rfl, isPinch_hand21, close_hand21,
    by norm_num [stAfterCreate, shapeCreationCooldown], ?_⟩
  rw [mainStep_twoPinch env0 1000 stAfterCreate isPinch_hand21 isPinch_hand21
    (show hand21[8]? = some origin by simp [hand21])
    (show hand21[8]? = some origin by simp [hand21])]
  norm_num [twoHandPinch, stAfterCreate, shapeCreationCooldown]

/-- Witness for C2 on a three-frame pinch session. -/
theorem one_shape_per_pinch_session_app :
    (([((2000 : ℤ), some [some hand21, some hand21]),
       ((2016 : ℤ), some [some hand21, some hand21]),
       ((2032 : ℤ), some [some hand21, some hand21])] : List (ℤ × Frame)).foldl
        (fun s q => mainStep env0 q.1 q.2 s) st0).shapes.length ≤
      st0.shapes.length + 1 :=
  one_shape_per_pinch_session env0 st0 _ rfl (by
    intro q hq
    have hq2 : q.2 = some [some hand21, some hand21] := by
      simp only [List.mem_cons, List.not_mem_nil, or_false] at hq
      rcases hq with rfl | rfl | rfl <;> rfl
    exact ⟨hand21, hand21, hq2, isPinch_hand21, isPinch_hand21⟩)

/-- A mid-session scaling state: one shape, current, baseline distance 0.2
(squared 1/25). -/
def stScaling : GState :=
  ⟨[⟨0, origin, 1, false⟩], 1, some 0, true, some (1 / 25), none, true, 0, false⟩

/-- Witness for C4: baseline 0.2, current distance 0.3, applied scale 1.5. -/
theorem scale_ratio_on_continuing_pinch_app :
    ((mainStep env0 2016 (some [some hand21, some hand21R]) stScaling).shapes.map
        (fun s : Shape => s.scaleSq) = [9 / 4]) ∧
    Real.sqrt ((9 : ℝ) / 4) = 3 / 2 := by
  have h := scale_ratio_on_continuing_pinch env0 2016 hand21 hand21R origin ptR 0
    (1 / 25) stScaling isPinch_hand21 isPinch_hand21R (by simp [hand21])
    (by simp [hand21R]) rfl rfl rfl (by norm_num)
  constructor
  · rw [h.1]
    norm_num [stScaling, dist2Sq, origin, ptR]
  · rw [show ((9 : ℝ) / 4) = (3 / 2) ^ 2 by norm_num, Real.sqrt_sq (by norm_num)]

/-- A mid-session state whose recorded baseline distance is zero. -/
def stZeroDist : GState :=
  ⟨[⟨0, origin, 1, false⟩], 1, some 0, true, some 0, none, true, 0, false⟩

/-- Witness for C5 at a zero recorded baseline. -/
theorem zero_original_distance_no_scale_app :
    mainStep env0 2016 (some [some hand21, some hand21]) stZeroDist =
      { stZeroDist with isPinching := true, recycleActive := false } :=
  zero_original_distance_no_scale env0 2016 hand21 hand21 origin origin stZeroDist
    isPinch_hand21 isPinch_hand21 (by simp [hand21]) (by simp [hand21]) rfl rfl

/-- A state with the selection on a shape parked inside the recycle zone
(identity projection: point (-0.7, -0.7) maps to mirrored screen
coordinates (850, 850), inside the 780–940 rectangle). -/
def stSelIn : GState :=
  ⟨[⟨0, ⟨-7 / 10, -7 / 10, 0⟩, 1, false⟩], 1, none, false, none, some 0, false, 0, true⟩

/-- Witness for C7: releasing over the recycle zone deletes the shape. -/
theorem release_deletes_iff_in_recycle_zone_app :
    ((mainStep env0 0 (some [some handOpen]) stSelIn).selectedShape = none) ∧
    ((mainStep env0 0 (some [some handOpen]) stSelIn).shapes = []) := by
  have h := release_deletes_iff_in_recycle_zone env0 0 handOpen origin stSelIn 0
    ⟨0, ⟨-7 / 10, -7 / 10, 0⟩, 1, false⟩ (by simp [handOpen]) isPinch_handOpen
    rfl rfl
  refine ⟨h.1, ?_⟩
  have hz : isInRecycleBinZone env0 (⟨-7 / 10, -7 / 10, 0⟩ : Pt3) = true := by
    norm_num [isInRecycleBinZone, screenX, screenY, env0]
  rw [h.2.2.1 hz]
  rfl

/-- The radius comparison of `findNearestShape` on squares matches the real
Euclidean one. -/
theorem sqrt_lt_radius_iff (q : ℚ) :
    (Real.sqrt ((q : ℚ) : ℝ) < 3 / 2) ↔ q < 9 / 4 := by
  rw [show ((3 : ℝ) / 2) = (((3 / 2 : ℚ)) : ℝ) by norm_num,
    sqrt_ratCast_lt (by norm_num)]
  norm_num

/-- Invariant of the `findNearestShape` loop after the prefix `L` has been
processed: either nothing qualified yet, or the accumulator holds the first
qualifying shape of minimal distance seen so far. -/
def NearInv (p : Pt3) (L : List Shape) : Option ℚ × Option Shape → Prop
  | (none, c) => c = none ∧ ∀ t ∈ L, ¬ dist3Sq t.pos p < 9 / 4
  | (some m, c) => ∃ s pre post, c = some s ∧ m = dist3Sq s.pos p ∧ m < 9 / 4 ∧
      L = pre ++ s :: post ∧ (∀ t ∈ L, m ≤ dist3Sq t.pos p) ∧
      (∀ t ∈ pre, m < dist3Sq t.pos p)

theorem nearestFold_fst_none (p : Pt3) (c : Option Shape) (x : Shape) :
    nearestFold p (none, c) x =
      if dist3Sq x.pos p < 9 / 4 then (some (dist3Sq x.pos p), some x)
      else (none, c) := by
  simp [nearestFold]

theorem nearestFold_fst_some (p : Pt3) (m : ℚ) (c : Option Shape) (x : Shape) :
    nearestFold p (some m, c) x =
      if dist3Sq x.pos p < 9 / 4 ∧ dist3Sq x.pos p < m
      then (some (dist3Sq x.pos p), some x)
      else (some m, c) := by
  simp [nearestFold]

theorem nearInv_step (p : Pt3) (L : List Shape) (acc : Option ℚ × Option Shape)
    (x : Shape) (h : NearInv p L acc) :
    NearInv p (L ++ [x]) (nearestFold p acc x) := by
  rcases acc with ⟨m?, c⟩
  cases m? with
  | none =>
    obtain ⟨rfl, hall⟩ := h
    rw [nearestFold_fst_none]
    by_cases hx : dist3Sq x.pos p < 9 / 4
    · rw [if_pos hx]
      refine ⟨x, L, [], rfl, rfl, hx, rfl, ?_, ?_⟩
      · intro t ht
        rcases List.mem_append.1 ht with h' | h'
        · have := hall t h'
          linarith
        · have : t = x := by simpa using h'
          subst this
          exact le_refl _
      · intro t ht
        have := hall t ht
        linarith
    · rw [if_neg hx]
      refine ⟨rfl, ?_⟩
      intro t ht
      rcases List.mem_append.1 ht with h' | h'
      · exact hall t h'
      · have : t = x := by simpa using h'
        subst this
        exact hx
  | some m =>
    obtain ⟨s, pre, post, rfl, rfl, hm4, rfl, hmin, hpre⟩ := h
    rw [nearestFold_fst_some]
    by_cases hx : dist3Sq x.pos p < 9 / 4 ∧ dist3Sq x.pos p < dist3Sq s.pos p
    · rw [if_pos hx]
      refine ⟨x, pre ++ s :: post, [], rfl, rfl, hx.1, rfl, ?_, ?_⟩
      · intro t ht
        rcases List.mem_append.1 ht with h' | h'
        · have := hmin t h'
          linarith [hx.2]
        · have : t = x := by simpa using h'
          subst this
          exact le_refl _
      · intro t ht
        have := hmin t ht
        linarith [hx.2]
    · rw [if_neg hx]
      refine ⟨s, pre, post ++ [x], rfl, rfl, hm4, by simp, ?_, hpre⟩
      intro t ht
      rcases List.mem_append.1 ht with h' | h'
      · exact hmin t h'
      · have : t = x := by simpa using h'
        subst this
        rcases not_and_or.1 hx with h4 | hge
        · linarith [not_lt.1 h4]
        · exact not_lt.1 hge

theorem nearInv_foldl (p : Pt3) (shapes : List Shape) :
    NearInv p shapes (shapes.foldl (nearestFold p) (none, none)) := by
  induction shapes using List.reverseRecOn with
  | nil => exact ⟨rfl, by simp⟩
  | append_singleton L x ih =>
    rw [List.foldl_append]
    simp only [List.foldl_cons, List.foldl_nil]
    exact nearInv_step p L _ x ih

/-- Claim C6: `findNearestShape` returns `none` iff no registered shape lies at
Euclidean distance strictly below 1.5 of the query position (in particular
over an empty registry, and when the minimum distance is exactly 1.5 or
more); when it returns a shape, that shape is in the registry, lies strictly
within radius 1.5, has minimal distance among all registered shapes, and
every shape registered before it is strictly farther (a tie at the minimum is
resolved to the earlier shape). -/
theorem findNearestShape_characterization (shapes : List Shape) (p : Pt3) :
    (findNearestShape shapes p = none ↔
      ∀ t ∈ shapes, ¬ Real.sqrt ((dist3Sq t.pos p : ℚ) : ℝ) < 3 / 2) ∧
    (∀ s : Shape, findNearestShape shapes p = some s →
      ∃ pre post, shapes = pre ++ s :: post ∧
        Real.sqrt ((dist3Sq s.pos p : ℚ) : ℝ) < 3 / 2 ∧
        (∀ t ∈ shapes, Real.sqrt ((dist3Sq s.pos p : ℚ) : ℝ) ≤
          Real.sqrt ((dist3Sq t.pos p : ℚ) : ℝ)) ∧
        (∀ t ∈ pre, Real.sqrt ((dist3Sq s.pos p : ℚ) : ℝ) <
          Real.sqrt ((dist3Sq t.pos p : ℚ) : ℝ))) := by
  have hInv := nearInv_foldl p shapes
  rcases hfold : shapes.foldl (nearestFold p) (none, none) with ⟨m?, c⟩
  rw [hfold] at hInv
  have hres : findNearestShape shapes p = c := by
    unfold findNearestShape
    rw [hfold]
  cases m? with
  | none =>
    obtain ⟨rfl, hall⟩ := hInv
    rw [hres]
    constructor
    · constructor
      · intro _ t ht
        rw [sqrt_lt_radius_iff]
        exact hall t ht
      · intro _
        rfl
    · intro s hs
      cases hs
  | some m =>
    obtain ⟨s, pre, post, rfl, rfl, hm4, hsplit, hmin, hpre⟩ := hInv
    rw [hres]
    constructor
    · constructor
      · intro hnone
        cases hnone
      · intro hall
        have hs_mem : s ∈ shapes := by
          rw [hsplit]
          exact List.mem_append.2 (Or.inr (List.mem_cons_self s post))
        have := hall s hs_mem
        rw [sqrt_lt_radius_iff] at this
        exact absurd hm4 this
    · intro s' hs'
      have : s = s' := by
        injection hs'
      subst this
      refine ⟨pre, post, hsplit, ?_, ?_, ?_⟩
      · rw [sqrt_lt_radius_iff]
        exact hm4
      · intro t ht
        exact Real.sqrt_le_sqrt (by exact_mod_cast hmin t ht)
      · intro t ht
        exact Real.sqrt_lt_sqrt (by exact_mod_cast dist3Sq_nonneg s.pos p)
          (by exact_mod_cast hpre t ht)

/-- The mouse-fallback state of `setupMouseControls` in
`src/unnamed/part_000`: the shared registry plus the closure-local drag
state. -/
structure MouseState where
  shapes : List Shape
  isDragging : Bool
  selectedViaMouseShape : Option ℕ
  deriving DecidableEq

/-- The `wheel` listener of `setupMouseControls`: `hit` is the result of
`findShapeUnderMouse` (raycasting through the external renderer, abstracted
as an input, identifying the hit shape by id).  When a shape is hit, its
uniform scale is multiplied by 0.9 if `deltaY > 0` and by 1.1 otherwise
(`scale.multiplyScalar`); on squares the factor is squared. -/
def wheelStep (hit : Option ℕ) (deltaY : ℚ) (st : MouseState) : MouseState :=
  match hit with
  | none => st
  | some sid =>
    let scaleFactor : ℚ := if deltaY > 0 then 9 / 10 else 11 / 10
    { st with shapes := st.shapes.map fun s : Shape =>
        if s.id = sid then { s with scaleSq := s.scaleSq * scaleFactor ^ 2 } else s }

/-- Claim C10: a wheel event over a shape multiplies that shape's uniform scale
by 0.9 (wheel down) or 1.1 (wheel up); the drag flag is untouched and the
effect on the registry does not depend on it. -/
theorem wheel_scales_shape_under_cursor (st : MouseState) (sid : ℕ) (d : ℚ)
    (s : Shape) (hs : s ∈ st.shapes) (hid : s.id = sid) (hpos : 0 ≤ s.scaleSq) :
    (∃ s' : Shape, s' ∈ (wheelStep (some sid) d st).shapes ∧ s'.id = sid ∧
      Real.sqrt ((s'.scaleSq : ℚ) : ℝ) =
        Real.sqrt ((s.scaleSq : ℚ) : ℝ) * (if d > 0 then (9 : ℝ) / 10 else 11 / 10)) ∧
    (wheelStep (some sid) d st).isDragging = st.isDragging ∧
    (∀ b : Bool, (wheelStep (some sid) d { st with isDragging := b }).shapes =
      (wheelStep (some sid) d st).shapes) := by
  refine ⟨⟨{ s with scaleSq := s.scaleSq * (if d > 0 then (9 : ℚ) / 10 else 11 / 10) ^ 2 },
      ?_, hid, ?_⟩, rfl, fun b => rfl⟩
  · have heq : (fun t : Shape =>
        if t.id = sid then
          { t with scaleSq := t.scaleSq * (if d > 0 then (9 : ℚ) / 10 else 11 / 10) ^ 2 }
        else t) s =
        { s with scaleSq := s.scaleSq * (if d > 0 then (9 : ℚ) / 10 else 11 / 10) ^ 2 } := by
      simp [hid]
    rw [wheelStep]
    exact heq ▸ List.mem_map_of_mem _ hs
  · by_cases hd : d > 0
    · simp only [hd, if_true, if_pos]
      push_cast
      rw [Real.sqrt_mul (by exact_mod_cast hpos),
        Real.sqrt_sq (by norm_num : (0:ℝ) ≤ 9 / 10)]
    · simp only [hd, if_false, if_neg]
      push_cast
      rw [Real.sqrt_mul (by exact_mod_cast hpos),
        Real.sqrt_sq (by norm_num : (0:ℝ) ≤ 11 / 10)]

/-- A mouse state with one shape of scale 1. -/
def mst0 : MouseState := ⟨[⟨0, origin, 1, false⟩], false, none⟩

/-- Witness for C10: wheel up over the shape scales it by 1.1. -/
theorem wheel_scales_shape_under_cursor_app :
    (∃ s' : Shape, s' ∈ (wheelStep (some 0) (-1) mst0).shapes ∧ s'.id = 0 ∧
      Real.sqrt (((s'.scaleSq : ℚ)) : ℝ) =
        Real.sqrt (((1 : ℚ) : ℝ)) *
          (if (-1 : ℚ) > 0 then (9 : ℝ) / 10 else 11 / 10)) ∧
    (wheelStep (some 0) (-1) mst0).isDragging = mst0.isDragging ∧
    (∀ b : Bool, (wheelStep (some 0) (-1) { mst0 with isDragging := b }).shapes =
      (wheelStep (some 0) (-1) mst0).shapes) :=
  wheel_scales_shape_under_cursor mst0 0 (-1) ⟨0, origin, 1, false⟩
    (by simp [mst0]) rfl (by norm_num)

end ShapeCreator
